import Mathlib

/-!
Verification of the model-invocation core of the Raycast PromptLab extension.

The development shallowly embeds three source files:
* `src/hooks/useModel.ts` — endpoint branch selection, the `get` key-path
  extractor, request-body substitution and streaming accumulation;
* `src/components/CommandChatView.tsx` — the conversation session
  (submit / cancel / regenerate) built on top of `useModel`.

JavaScript-specific behaviour (string `+` coercion, `String.prototype.replace`
`$`-patterns, truthiness, `typeof`, regex-based splitting) is modelled
explicitly.  Braces that occur in string literals are written with the `\x7b`
and `\x7d` escapes throughout.
-/

namespace PromptLab

/-- The `}` character (written via its code point). -/
def curlyClose : Char := Char.ofNat 125

/-- The backquote character (used by JS `$\x60` replacement patterns). -/
def backquote : Char := Char.ofNat 96

/-- The apostrophe character (used by JS `$'` replacement patterns). -/
def apostrophe : Char := Char.ofNat 39

/-- JS whitespace (the characters matched by `\s` and trimmed by
`String.prototype.trim`); the ASCII part plus the common Unicode space
code points. -/
def isJsWS (c : Char) : Bool :=
  c = ' ' || c = '\t' || c = '\n' || c = '\r' || c = Char.ofNat 11 ||
  c = Char.ofNat 12 || c = Char.ofNat 160 || c = Char.ofNat 0x2028 ||
  c = Char.ofNat 0x2029 || c = Char.ofNat 0xfeff || c = Char.ofNat 0x3000

/-- JS `String.prototype.trim` on a character list: drop leading and trailing
whitespace. -/
def jsTrimL (l : List Char) : List Char :=
  ((l.dropWhile isJsWS).reverse.dropWhile isJsWS).reverse

/-- JS `str.split(".")`: split on every occurrence of `.`, keeping empty
segments (`"".split(".")` is `[""]`). -/
def dotSplit : List Char → List (List Char)
  | [] => [[]]
  | c :: rest =>
    if c = '.' then [] :: dotSplit rest
    else
      match dotSplit rest with
      | [] => [[c]]
      | t :: ts => (c :: t) :: ts

/-- Split `l` at the LAST occurrence of `]`: returns `(cap, tail)` with
`l = cap ++ ']' :: tail` and no `]` in `tail`. -/
def splitAtLastRB : List Char → Option (List Char × List Char)
  | [] => none
  | c :: rest =>
    match splitAtLastRB rest with
    | some (cap, tail) => some (c :: cap, tail)
    | none => if c = ']' then some ([], rest) else none

/-- The greedy bracket capture of the JS regex `\[([^\x7d]+)\]` when the
engine sits just after a `[`: the capture runs over non-`\x7d` characters and
closes at the last possible `]` (greedy matching with backtracking).  Note the
source regex excludes `\x7d` (a closing curly brace), not `]`, inside the
capture group. -/
def bracketCapture (rest : List Char) : Option (List Char × List Char) :=
  match splitAtLastRB (rest.takeWhile (fun c => c != curlyClose)) with
  | none => none
  | some (cap, tail) =>
    if cap.isEmpty then none
    else some (cap, tail ++ rest.drop (rest.takeWhile (fun c => c != curlyClose)).length)

/-- Leftmost match of the regex `\[([^\x7d]+)\]` in `s`: returns
`(before, capture, after)`. -/
def findMatch : List Char → Option (List Char × List Char × List Char)
  | [] => none
  | c :: rest =>
    if c = '[' then
      match bracketCapture rest with
      | some (cap, rem) => some ([], cap, rem)
      | none => (findMatch rest).map (fun pr => (c :: pr.1, pr.2.1, pr.2.2))
    else
      (findMatch rest).map (fun pr => (c :: pr.1, pr.2.1, pr.2.2))

/-- JS `str.split(/\[([^\x7d]+)\]/g)` with the capture group included in the
result (fuel-driven; the fuel `s.length + 1` always suffices because every
match consumes at least three characters). -/
def splitCapGo : Nat → List Char → List (List Char)
  | 0, s => [s]
  | n + 1, s =>
    match findMatch s with
    | none => [s]
    | some (pre, cap, rest) => pre :: cap :: splitCapGo n rest

/-- Regex split of one dot-segment, as performed by `get` in
`useModel.ts` lines 57–62. -/
def splitCapture (s : List Char) : List (List Char) :=
  splitCapGo (s.length + 1) s

/-- Key-path tokenization of `get` (`useModel.ts` lines 51–63): trim, split on
`.`, split each segment on the bracket regex, and keep only non-empty
tokens. -/
def tokenizePath (p : String) : List String :=
  (((dotSplit (jsTrimL p.toList)).flatMap splitCapture).filter
      (fun l => !l.isEmpty)).map (fun l => String.mk l)

/-- Spec-side tokenizer, modelled from the spec's words for comparison
(§4.2 / claim C6): split on `.` first, then split each segment into
bracket-delimited sub-segments (`name[idx]` → `name`, `idx`; brackets are
plain delimiters, so `a[0][1]` → `a`, `0`, `1`), discarding empty tokens. -/
def bracketDelimSplit : List Char → List (List Char)
  | [] => [[]]
  | c :: rest =>
    if c = '[' ∨ c = ']' then [] :: bracketDelimSplit rest
    else
      match bracketDelimSplit rest with
      | [] => [[c]]
      | t :: ts => (c :: t) :: ts

/-- Spec-side tokenization (the claim's reading of §4.2), to be compared with
`tokenizePath` which is translated from the source. -/
def specTokenize (p : String) : List String :=
  (((dotSplit (jsTrimL p.toList)).flatMap bracketDelimSplit).filter
      (fun l => !l.isEmpty)).map (fun l => String.mk l)

/-- JSON-like values as produced by `response.json()` / `JSON.parse`.
Numbers are restricted to integers, which suffices for every claim (the only
numeric behaviour the claims touch is falsiness of `0`). -/
inductive JsValue where
  | null : JsValue
  | bool : Bool → JsValue
  | num : Int → JsValue
  | str : String → JsValue
  | arr : List JsValue → JsValue
  | obj : List (String × JsValue) → JsValue

/-- JS truthiness on defined values (`undefined` is handled separately as
`Option.none`): `null`, `false`, `0` and `""` are falsy; arrays and objects
are always truthy. -/
def jsFalsy : JsValue → Bool
  | JsValue.null => true
  | JsValue.bool b => !b
  | JsValue.num n => n == 0
  | JsValue.str s => s == ""
  | JsValue.arr _ => false
  | JsValue.obj _ => false

/-- JS `typeof v == "object"`: true for `null`, arrays and objects. -/
def jsTypeofObject : JsValue → Bool
  | JsValue.null => true
  | JsValue.arr _ => true
  | JsValue.obj _ => true
  | _ => false

/-- Decimal digits to a natural number. -/
def digitsToNat (l : List Char) : Nat :=
  l.foldl (fun a c => a * 10 + (c.toNat - 48)) 0

/-- A canonical array-index string (`"0"`, `"17"`, … but not `"01"`), as used
by JS property access on arrays and strings. -/
def parseIndex (t : String) : Option Nat :=
  match t.toList with
  | [] => none
  | c :: rest =>
    if (c :: rest).all Char.isDigit ∧ (c ≠ '0' ∨ rest = []) then
      some (digitsToNat (c :: rest))
    else none

/-- First-match association-list lookup (object fields; `JSON.parse` already
deduplicates keys, so field lists are assumed key-unique). -/
def jsLookup : List (String × JsValue) → String → Option JsValue
  | [], _ => none
  | (k, v) :: rest, key => if k = key then some v else jsLookup rest key

/-- JS member access `v[k]` on a non-null value: object field lookup, array
index / `length`, string index / `length`; `none` models `undefined`.
Only data properties of the JSON values are modelled; prototype-inherited
members (such as `toString`) are treated as absent. -/
def jsMember : JsValue → String → Option JsValue
  | JsValue.obj fields, k => jsLookup fields k
  | JsValue.arr xs, k =>
    if k = "length" then some (JsValue.num xs.length)
    else
      match parseIndex k with
      | some i => xs[i]?
      | none => none
  | JsValue.str s, k =>
    if k = "length" then some (JsValue.num s.length)
    else
      match parseIndex k with
      | some i =>
        match s.toList[i]? with
        | some c => some (JsValue.str (String.mk [c]))
        | none => none
      | none => none
  | _, _ => none

/-- The traversal loop of `get` (`useModel.ts` lines 65–71): for each token,
if the looked-up member is falsy or missing return the default, else descend.
Member access on `null` throws a `TypeError` in JS, modelled as
`Except.error ()`. -/
def getLoop (d : Option JsValue) : JsValue → List String → Except Unit (Option JsValue)
  | cur, [] => Except.ok (some cur)
  | JsValue.null, _ :: _ => Except.error ()
  | cur, t :: ts =>
    match jsMember cur t with
    | none => Except.ok d
    | some v => if jsFalsy v then Except.ok d else getLoop d v ts

/-- The `get` key-path extractor (`useModel.ts` lines 50–73).  The `typeof`
guard is checked once on the initial value only; a non-object initial value is
returned unchanged, skipping the loop. -/
def get (obj : JsValue) (pathString : String) (d : Option JsValue) :
    Except Unit (Option JsValue) :=
  if jsTypeofObject obj then getLoop d obj (tokenizePath pathString)
  else Except.ok (some obj)

/-- Boolean list-prefix test (the JS engine's anchored string match). -/
def isPrefixL : List Char → List Char → Bool
  | [], _ => true
  | _ :: _, [] => false
  | a :: as, b :: bs => a == b && isPrefixL as bs

/-- Leftmost occurrence of `pat` in `s`: returns `(before, after)` with
`s = before ++ pat ++ after`. -/
def findFirst (pat : List Char) : List Char → Option (List Char × List Char)
  | [] => if isPrefixL pat [] then some ([], []) else none
  | c :: rest =>
    if isPrefixL pat (c :: rest) then some ([], (c :: rest).drop pat.length)
    else (findFirst pat rest).map (fun pr => (c :: pr.1, pr.2))

/-- JS `String.prototype.includes`. -/
def jsIncludes (s sub : String) : Bool :=
  (findFirst sub.toList s.toList).isSome

/-- JS `GetSubstitution` for a string pattern (no capture groups): expand the
`$$`, `$&`, `$\x60` and `$'` patterns in the replacement text; `$` followed by
anything else (including digits, as there are no captures) stays literal. -/
def getSubst (matched pre post : List Char) : List Char → List Char
  | [] => []
  | c :: rest =>
    if c = '$' then
      match rest with
      | [] => ['$']
      | c2 :: r2 =>
        (if c2 = '$' then ['$']
         else if c2 = '&' then matched
         else if c2 = backquote then pre
         else if c2 = apostrophe then post
         else ['$', c2]) ++ getSubst matched pre post r2
    else c :: getSubst matched pre post rest

/-- JS `String.prototype.replace` with a string pattern: replace only the
FIRST occurrence, expanding `$`-patterns in the replacement. -/
def jsReplaceL (s pat repl : List Char) : List Char :=
  match findFirst pat s with
  | none => s
  | some (pre, post) => pre ++ getSubst pat pre post repl ++ post

/-- JS `String.prototype.replace` at the `String` level. -/
def jsReplace (s pat repl : String) : String :=
  String.mk (jsReplaceL s.toList pat.toList repl.toList)

/-- Spec-side literal replace-all (fuel-driven, non-overlapping, left to
right, no `$`-expansion), used to state what "the template with the tokens
substituted" means in claim C4. -/
def replAllGo (pat repl : List Char) : Nat → List Char → List Char
  | 0, s => s
  | n + 1, s =>
    match findFirst pat s with
    | none => s
    | some (pre, post) => pre ++ repl ++ replAllGo pat repl n post

/-- Spec-side literal replace-all at the `String` level. -/
def replaceAllStr (s pat repl : String) : String :=
  String.mk (replAllGo pat.toList repl.toList (s.toList.length + 1) s.toList)

/-- `pat` occurs at most once in `s`. -/
def noSecond (s pat : String) : Bool :=
  match findFirst pat.toList s.toList with
  | none => true
  | some pr => (findFirst pat.toList pr.2).isNone

/-- The replacement text contains no `$` (so JS replace inserts it
literally). -/
def noDollarS (s : String) : Bool :=
  s.toList.all (fun c => c != '$')

/-- Collapse every maximal run of JS whitespace to a single space — the
effect of `.replaceAll(/[\n\r\s]+/g, " ")`.  The flag records whether the
previous character belonged to a run already collapsed. -/
def collapseGo : Bool → List Char → List Char
  | _, [] => []
  | inRun, c :: rest =>
    if isJsWS c then
      if inRun then collapseGo true rest else ' ' :: collapseGo true rest
    else c :: collapseGo false rest

/-- Backslash-escape every double quote — the effect of
`.replaceAll('"', '\\"')`. -/
def escapeQ (l : List Char) : List Char :=
  l.flatMap (fun c => if c = '"' then ['\\', '"'] else [c])

/-- Whitespace-collapse then quote-escape, as applied to `prompt`,
`basePrompt` and `input` in `useModel.ts` lines 96, 101 and 107. -/
def strCE (s : String) : String :=
  String.mk (escapeQ (collapseGo false s.toList))

/-- The value substituted for `\x7binput\x7d` (`useModel.ts` lines 103–108):
empty when the original template contains `\x7bprompt` and `input` equals
`prompt`; otherwise the collapsed-escaped input followed by the prompt
suffix. -/
def inputValue (tmpl sfx p inp : String) : String :=
  if jsIncludes tmpl "\x7bprompt" && p == inp then "" else strCE inp ++ sfx

/-- The synchronous-HTTP request body (`useModel.ts` lines 92–108):
sequential `String.prototype.replace` of the first occurrence of each of
`\x7bprompt\x7d`, `\x7bbasePrompt\x7d`, `\x7binput\x7d`.  The prompt value is
wrapped in prefix and suffix, the basePrompt value gets only the prefix, the
input value only the suffix. -/
def buildBodySync (tmpl pfx sfx bp p inp : String) : String :=
  jsReplace
    (jsReplace (jsReplace tmpl "\x7bprompt\x7d" (pfx ++ strCE p ++ sfx))
      "\x7bbasePrompt\x7d" (pfx ++ strCE bp))
    "\x7binput\x7d" (inputValue tmpl sfx p inp)

/-- Spec-side request body, modelled from the claim's words for comparison
(claim C4): the template with the tokens substituted by the corresponding
values — every occurrence replaced, literally. -/
def specBodySync (tmpl pfx sfx bp p inp : String) : String :=
  replaceAllStr
    (replaceAllStr (replaceAllStr tmpl "\x7bprompt\x7d" (pfx ++ strCE p ++ sfx))
      "\x7bbasePrompt\x7d" (pfx ++ strCE bp))
    "\x7binput\x7d" (inputValue tmpl sfx p inp)

/-- One streaming-accumulation step (`useModel.ts` lines 159–163): a chunk
value that contains the accumulated text replaces it (snapshot semantics),
otherwise it is appended (delta semantics). -/
def accumStep (text out : String) : String :=
  if jsIncludes out text then out else text ++ out

/-- Accumulated text after a sequence of extracted chunk values, starting
from the empty string. -/
def accumulate (chunks : List String) : String :=
  chunks.foldl accumStep ""

/-- ASCII lowercasing (JS `toLowerCase`; the native-AI aliases are ASCII). -/
def jsToLower (s : String) : String :=
  String.mk (s.toList.map Char.toLower)

/-- The accepted spellings of the Raycast AI endpoint
(`useModel.ts` line 22). -/
def validRaycastAIReps : List String :=
  ["raycast ai", "raycastai", "raycast", "raycast-ai"]

/-- The mutually exclusive branches of `useModel`
(`useModel.ts` lines 24–42, 194–195), in source order: the empty-prompt guard
runs first, then the native-AI aliases (with the capability check), then the
URL test (`includes(":")`), else the invalid-endpoint fallback. -/
inductive ModelBranch where
  | emptyPrompt : ModelBranch
  | nativeUnavailable : ModelBranch
  | nativeAI : ModelBranch
  | http : ModelBranch
  | invalid : ModelBranch
deriving DecidableEq

/-- Branch selection of `useModel` for a given endpoint preference, AI
capability, base prompt and prompt. -/
def selectBranch (endpoint : String) (canAccessAI : Bool) (basePrompt promptArg : String) :
    ModelBranch :=
  if basePrompt.length = 0 ∧ promptArg.length = 0 then ModelBranch.emptyPrompt
  else if jsToLower endpoint ∈ validRaycastAIReps then
    if canAccessAI then ModelBranch.nativeAI else ModelBranch.nativeUnavailable
  else if jsIncludes endpoint ":" then ModelBranch.http
  else ModelBranch.invalid

/-- The immediately returned hook value: `data`, `error`, and whether the
branch issues a network request (`fetch`).  The native branch delegates to the
platform `useAI` hook and performs no `fetch` of its own. -/
structure ModelOutcome where
  data : String
  error : Option String
  networkCall : Bool
deriving DecidableEq

/-- The immediate outcome of each `useModel` branch (`useModel.ts`
lines 24–26, 30–37, 38–41, 185–191, 194–195). -/
def branchOutcome : ModelBranch → ModelOutcome
  | ModelBranch.emptyPrompt => ⟨"", some "Prompt cannot be empty", false⟩
  | ModelBranch.nativeUnavailable =>
    ⟨"", some "Raycast AI is not available — Upgrade to Pro or use a different model endpoint.",
      false⟩
  | ModelBranch.nativeAI => ⟨"", none, false⟩
  | ModelBranch.http => ⟨"", none, true⟩
  | ModelBranch.invalid => ⟨"", some "Invalid Endpoint", false⟩

/-- What calling the hook's `revalidate` does. -/
inductive RevEffect where
  | reinvoke : String → RevEffect
  | noop : RevEffect
deriving DecidableEq

/-- The `revalidate` returned by `useModel`: in the native-AI branch it is the
`useAI` revalidate, which re-runs the same request
(`promptPrefix + prompt + promptSuffix`, `useModel.ts` line 39); every other
branch returns the stub `() => null`
(`useModel.ts` lines 25, 34, 188, 195). -/
def useModelRevalidate (branch : ModelBranch) (pfx sfx sentQuery : String) : RevEffect :=
  match branch with
  | ModelBranch.nativeAI => RevEffect.reinvoke (pfx ++ sentQuery ++ sfx)
  | _ => RevEffect.noop

/-- The state of one `CommandChatView` conversation session
(`CommandChatView.tsx` lines 39–45). -/
structure SessionState where
  query : String
  sentQuery : String
  currentResponse : String
  previousResponse : String
  enableModel : Bool
  queryError : Option String
  conversation : List String
deriving DecidableEq

/-- The submitted form values (`CommandChatView.tsx` line 116). -/
structure FormValues where
  queryField : String
  responseField : String
  useFilesCheckbox : Bool
  useConversationCheckbox : Bool

/-- What a submit does beyond updating the session state. -/
inductive SubmitEffect where
  | rejected : SubmitEffect
  | diverges : SubmitEffect
  | invoked : SubmitEffect
deriving DecidableEq

/-- What the cancel action does (`CommandChatView.tsx` line 110). -/
inductive CancelAction where
  | abandonInvocation : CancelAction
  | callerCancel : CancelAction
deriving DecidableEq

/-- What the regenerate action does (`CommandChatView.tsx` line 174). -/
inductive RegenAction where
  | invokerRevalidate : RevEffect → RegenAction
  | callerRevalidate : RegenAction
deriving DecidableEq

/-- The integer fragment of JS `ToNumber` on strings: trim, empty → `0`,
optional sign followed by decimal digits → that integer, anything else →
`NaN` (modelled as `none`).  Decimal points, exponents and hex literals are
not modelled; every string this development evaluates falls in this
fragment. -/
def jsToNumberL : List Char → Option Int
  | [] => some 0
  | c :: rest =>
    if c = '-' then
      if rest ≠ [] ∧ rest.all Char.isDigit then some (-(digitsToNat rest : Int)) else none
    else if c = '+' then
      if rest ≠ [] ∧ rest.all Char.isDigit then some ((digitsToNat rest : Int)) else none
    else if (c :: rest).all Char.isDigit then some ((digitsToNat (c :: rest) : Int))
    else none

def jsToNumber (s : String) : Option Int :=
  jsToNumberL (jsTrimL s.toList)

/-- JS `x > bound` where `x` is a string and `bound` a number: the string is
converted with `ToNumber`; a `NaN` comparison is false. -/
def jsGtNum (s : String) (bound : Int) : Bool :=
  match jsToNumber s with
  | none => false
  | some v => bound < v

/-- JS `Array.prototype.join`. -/
def jsJoin (xs : List String) (sep : String) : String :=
  match xs with
  | [] => ""
  | x :: rest => rest.foldl (fun acc y => acc ++ sep ++ y) x

/-- The trimming condition of `CommandChatView.tsx` line 131:
`values.queryField + convo.join("\n").length > 3900`.  In JS the `+` is
STRING concatenation (the query string concatenated with the decimal
rendering of the joined length), and the `>` converts that string with
`ToNumber` — `NaN`, hence false, whenever the query is not numeric. -/
def trimCond (queryField : String) (convo : List String) : Bool :=
  jsGtNum (queryField ++ toString (jsJoin convo "\n").length) 3900

/-- The `while … convo.shift()` loop of `CommandChatView.tsx` lines 131–133.
`none` models the loop running forever (condition still true on the empty
array). -/
def trimGo (queryField : String) : List String → Option (List String)
  | [] => if trimCond queryField [] then none else some []
  | c :: rest =>
    if trimCond queryField (c :: rest) then trimGo queryField rest
    else some (c :: rest)

/-- The contextual mega-prompt assembled in `CommandChatView.tsx`
lines 146–165.  Note that the history block interpolates the conversation
state captured BEFORE this submit's `setConversation`. -/
def megaPrompt (basePrompt : String) (contentPrompts : List String) (filesLen : Nat)
    (oldConversation : List String) (values : FormValues) (subbedPrompt : String) :
    String :=
  (if values.responseField.length > 0 then
    "You are an interactive chatbot, and I am giving you instructions. You will use this base prompt for context as you consider my next input. Here is the prompt: ###"
      ++ basePrompt ++ "###\n\n" ++
    (if values.useFilesCheckbox && filesLen != 0 then
      " You will also consider the following details about selected files. Here are the file details: ###"
        ++ jsJoin contentPrompts "\n" ++ "###\n\n"
     else "") ++
    (if values.useConversationCheckbox then
      "You will also consider our conversation history. The history so far: ###"
        ++ jsJoin oldConversation "\n"
     else
      "You will also consider your previous response. Your previous response was: ###"
        ++ values.responseField) ++
    "###\n\nMy next input is: ###"
   else "") ++ "\n                  " ++ subbedPrompt ++ "###"

/-- The `onSubmit` handler (`CommandChatView.tsx` lines 116–167).  An empty
query is rejected with a form-field error before any state mutation.
Otherwise: the previous response is stored, the displayed response cleared,
the conversation extended with `[responseField, queryField]` and trimmed by
`trimGo`, the mega-prompt built (with the placeholder-resolved `query` state,
modelled by `resolve`), the model enabled and `reattempt()` called. -/
def onSubmit (basePrompt : String) (contentPrompts : List String) (filesLen : Nat)
    (resolve : String → String) (st : SessionState) (values : FormValues) :
    SessionState × SubmitEffect :=
  if values.queryField.length = 0 then
    ({ st with queryError := some "Query cannot be empty" }, SubmitEffect.rejected)
  else
    match trimGo values.queryField (st.conversation ++ [values.responseField, values.queryField]) with
    | none =>
      ({ st with queryError := none, previousResponse := values.responseField,
                 currentResponse := "" }, SubmitEffect.diverges)
    | some convo =>
      ({ st with queryError := none,
                 previousResponse := values.responseField,
                 currentResponse := "",
                 conversation := convo,
                 enableModel := true,
                 sentQuery :=
                   megaPrompt basePrompt contentPrompts filesLen st.conversation values
                     (resolve st.query) },
       SubmitEffect.invoked)

/-- The cancel action (`CommandChatView.tsx` lines 106–112): with a previous
response, only the in-flight invocation is abandoned (`setEnableModel(false)`);
without one, the caller-level `cancel()` abandons the session. -/
def cancelOp (st : SessionState) : SessionState × CancelAction :=
  if st.previousResponse.length > 0 then
    ({ st with enableModel := false }, CancelAction.abandonInvocation)
  else (st, CancelAction.callerCancel)

/-- The regenerate action (`CommandChatView.tsx` lines 171–176): with a
previous response it calls the hook's `revalidate` (`reattempt`); without one
it calls the caller-level `revalidate`.  The session state is never
mutated. -/
def regenerateOp (branch : ModelBranch) (pfx sfx : String) (st : SessionState) :
    SessionState × RegenAction :=
  if st.previousResponse.length > 0 then
    (st, RegenAction.invokerRevalidate (useModelRevalidate branch pfx sfx st.sentQuery))
  else (st, RegenAction.callerRevalidate)

/-- A 1949-character non-numeric query, used to exercise the trimming loop of
`onSubmit` (claim C1). -/
def c1Query : String := String.mk (List.replicate 1949 'a')

/-! ### Lemmas and claim theorems -/

lemma getLoop_cons_of_ne_null (d : Option JsValue) (cur : JsValue) (t : String)
    (ts : List String) (h : cur ≠ JsValue.null) :
    getLoop d cur (t :: ts) =
      match jsMember cur t with
      | none => Except.ok d
      | some v => if jsFalsy v then Except.ok d else getLoop d v ts := by
  cases cur with
  | null => exact absurd rfl h
  | bool b => rfl
  | num n => rfl
  | str s => rfl
  | arr xs => rfl
  | obj fs => rfl

lemma getLoop_ne_error (d : Option JsValue) :
    ∀ (ts : List String) (cur : JsValue), cur ≠ JsValue.null →
      getLoop d cur ts ≠ Except.error () := by
  intro ts
  induction ts with
  | nil => intro cur _; simp [getLoop]
  | cons t ts ih =>
    intro cur h
    rw [getLoop_cons_of_ne_null d cur t ts h]
    cases hm : jsMember cur t with
    | none => simp
    | some v =>
      by_cases hv : jsFalsy v
      · simp [hv]
      · have hvn : v ≠ JsValue.null := by
          intro h'; subst h'; simp [jsFalsy] at hv
        simp [hv]
        exact ih v hvn

/-- Claim C2 (amended): the extractor raises exactly when the initial value is
`null` and the tokenized path is non-empty; a non-object initial value is
returned unchanged, regardless of the path; and during traversal a token
whose member lookup is missing makes the extractor return the supplied
default immediately. -/
theorem c2_extractor_amended :
    ∀ (v : JsValue) (p : String) (d : Option JsValue),
      ((get v p d = Except.error ()) ↔ (v = JsValue.null ∧ tokenizePath p ≠ [])) ∧
      (jsTypeofObject v = false → get v p d = Except.ok (some v)) ∧
      (∀ (cur : JsValue) (t : String) (ts : List String),
        cur ≠ JsValue.null → jsMember cur t = none →
        getLoop d cur (t :: ts) = Except.ok d) := by
  intro v p d
  refine ⟨⟨?_, ?_⟩, ?_, ?_⟩
  · intro h
    by_cases ht : jsTypeofObject v
    · cases v with
      | null =>
        refine ⟨rfl, ?_⟩
        intro hp
        rw [get, if_pos ht, hp] at h
        simp [getLoop] at h
      | bool b => simp [jsTypeofObject] at ht
      | num n => simp [jsTypeofObject] at ht
      | str s => simp [jsTypeofObject] at ht
      | arr xs =>
        rw [get, if_pos ht] at h
        exact absurd h (getLoop_ne_error d _ _ (by intro h'; cases h'))
      | obj fs =>
        rw [get, if_pos ht] at h
        exact absurd h (getLoop_ne_error d _ _ (by intro h'; cases h'))
    · rw [get, if_neg ht] at h
      cases h
  · rintro ⟨rfl, hp⟩
    rw [get, if_pos (show jsTypeofObject JsValue.null = true from rfl)]
    cases htok : tokenizePath p with
    | nil => exact absurd htok hp
    | cons t ts => rfl
  · intro h
    rw [get, if_neg]
    simp [h]
  · intro cur t ts hn hm
    rw [getLoop_cons_of_ne_null d cur t ts hn, hm]

/-- Claim C2 counterexample: on the JSON value `null` with a non-empty path
the extractor raises a `TypeError` (member access on `null`), so it is not
true that it never raises. -/
theorem c2_counterexample :
    get JsValue.null "a" (some (JsValue.str "d")) = Except.error () := rfl

/-- Claim C2 witness. -/
theorem c2_witness :
    get (JsValue.str "s") "a.b" none = Except.ok (some (JsValue.str "s")) :=
  (c2_extractor_amended (JsValue.str "s") "a.b" none).2.1 rfl

/-- Claim C10: whenever a member lookup during traversal yields a falsy value
(empty string, `0`, `false`, `null`) — even though the key is present — the
extractor returns the supplied default rather than that falsy value. -/
theorem c10_falsy_yields_default :
    (∀ (d : Option JsValue) (cur : JsValue) (t : String) (ts : List String) (u : JsValue),
      jsMember cur t = some u → jsFalsy u = true → getLoop d cur (t :: ts) = Except.ok d) ∧
    get (JsValue.obj [("a", JsValue.str "")]) "a" (some (JsValue.str "fallback")) =
      Except.ok (some (JsValue.str "fallback")) := by
  constructor
  · intro d cur t ts u hm hu
    have hn : cur ≠ JsValue.null := by
      intro h
      subst h
      have : jsMember JsValue.null t = none := rfl
      rw [this] at hm
      cases hm
    rw [getLoop_cons_of_ne_null d cur t ts hn, hm]
    simp [hu]
  · rfl

/-- Claim C10 witness. -/
theorem c10_witness :
    getLoop (some (JsValue.str "D")) (JsValue.obj [("k", JsValue.num 0)]) ["k"] =
      Except.ok (some (JsValue.str "D")) :=
  c10_falsy_yields_default.1 (some (JsValue.str "D")) (JsValue.obj [("k", JsValue.num 0)])
    "k" [] (JsValue.num 0) rfl rfl

/-- Claim C7: with a non-empty previous response, cancel abandons only the
in-flight invocation (the model is disabled, i.e. the session returns to
Idle) and leaves the previous response, the displayed response, the sent
query and the conversation history untouched; with no previous response it
performs the caller-level cancel. -/
theorem c7_cancel_frame :
    ∀ st : SessionState,
      (cancelOp st).1.previousResponse = st.previousResponse ∧
      (cancelOp st).1.currentResponse = st.currentResponse ∧
      (cancelOp st).1.conversation = st.conversation ∧
      (cancelOp st).1.sentQuery = st.sentQuery ∧
      (st.previousResponse.length > 0 →
        (cancelOp st).2 = CancelAction.abandonInvocation ∧
        (cancelOp st).1.enableModel = false) ∧
      (¬ st.previousResponse.length > 0 → cancelOp st = (st, CancelAction.callerCancel)) := by
  intro st
  by_cases h : st.previousResponse.length > 0 <;> simp [cancelOp, h]

/-- Claim C7 witness. -/
theorem c7_witness :
    (cancelOp ⟨"", "", "", "r", true, none, ["p"]⟩).2 = CancelAction.abandonInvocation ∧
    (cancelOp ⟨"", "", "", "r", true, none, ["p"]⟩).1.enableModel = false :=
  (c7_cancel_frame ⟨"", "", "", "r", true, none, ["p"]⟩).2.2.2.2.1 (by decide)

/-- Claim C8: submitting an empty query sets the form-field error
`"Query cannot be empty"` and returns immediately: previous response,
displayed response, conversation history, sent query and the model-enabled
flag are all unchanged, and no invocation is started. -/
theorem c8_empty_query_rejected :
    ∀ (bp : String) (cps : List String) (fl : Nat) (resolve : String → String)
      (st : SessionState) (values : FormValues),
      values.queryField = "" →
      (onSubmit bp cps fl resolve st values).1.queryError = some "Query cannot be empty" ∧
      (onSubmit bp cps fl resolve st values).1.previousResponse = st.previousResponse ∧
      (onSubmit bp cps fl resolve st values).1.currentResponse = st.currentResponse ∧
      (onSubmit bp cps fl resolve st values).1.conversation = st.conversation ∧
      (onSubmit bp cps fl resolve st values).1.enableModel = st.enableModel ∧
      (onSubmit bp cps fl resolve st values).1.sentQuery = st.sentQuery ∧
      (onSubmit bp cps fl resolve st values).2 = SubmitEffect.rejected := by
  intro bp cps fl resolve st values h
  have h0 : values.queryField.length = 0 := by rw [h]; rfl
  simp [onSubmit, h0]

/-- Claim C8 witness. -/
theorem c8_witness :
    (onSubmit "p" [] 0 id ⟨"", "", "", "", false, none, ["p"]⟩ ⟨"", "r", false, true⟩).2 =
      SubmitEffect.rejected :=
  (c8_empty_query_rejected "p" [] 0 id ⟨"", "", "", "", false, none, ["p"]⟩
    ⟨"", "r", false, true⟩ rfl).2.2.2.2.2.2

/-- Claim C5 (amended): regenerate never mutates the session state; with a
previous response it calls the hook's `revalidate`, which re-invokes with the
same last sent query only in the native-AI branch and is a null-stub no-op in
the HTTP (and every other) branch; with no previous response it calls the
caller-level revalidate that re-runs the base request. -/
theorem c5_regenerate_amended :
    ∀ (st : SessionState) (branch : ModelBranch) (pfx sfx : String),
      (regenerateOp branch pfx sfx st).1 = st ∧
      (st.previousResponse.length > 0 →
        (regenerateOp branch pfx sfx st).2 =
          RegenAction.invokerRevalidate (useModelRevalidate branch pfx sfx st.sentQuery) ∧
        useModelRevalidate ModelBranch.nativeAI pfx sfx st.sentQuery =
          RevEffect.reinvoke (pfx ++ st.sentQuery ++ sfx) ∧
        useModelRevalidate ModelBranch.http pfx sfx st.sentQuery = RevEffect.noop) ∧
      (¬ st.previousResponse.length > 0 →
        (regenerateOp branch pfx sfx st).2 = RegenAction.callerRevalidate) := by
  intro st branch pfx sfx
  by_cases h : st.previousResponse.length > 0 <;>
    simp [regenerateOp, useModelRevalidate, h]

/-- Claim C5 counterexample: in the HTTP branch, regenerate with a previous
response produces the null-stub revalidate — a no-op, not a replay of the
last sent query. -/
theorem c5_counterexample :
    (regenerateOp ModelBranch.http "" "" ⟨"", "lastQ", "", "resp", false, none, ["p"]⟩).2 =
      RegenAction.invokerRevalidate RevEffect.noop ∧
    RegenAction.invokerRevalidate RevEffect.noop ≠
      RegenAction.invokerRevalidate (RevEffect.reinvoke ("" ++ "lastQ" ++ "")) := by
  exact ⟨rfl, by decide⟩

/-- Claim C5 witness. -/
theorem c5_witness :
    (regenerateOp ModelBranch.nativeAI "" "" ⟨"", "q0", "", "resp", false, none, ["p"]⟩).2 =
      RegenAction.invokerRevalidate (useModelRevalidate ModelBranch.nativeAI "" "" "q0") :=
  ((c5_regenerate_amended ⟨"", "q0", "", "resp", false, none, ["p"]⟩ ModelBranch.nativeAI
    "" "").2.1 (by decide)).1

/-- Claim C9 (amended): when the endpoint case-insensitively matches a
native-AI alias, the capability is unavailable, and the empty-prompt guard
does not fire first (at least one of base prompt and prompt is non-empty),
the invocation immediately yields the capability-unavailable error with empty
data and no network call. -/
theorem c9_capability_amended :
    ∀ (endpoint : String) (canAI : Bool) (bp p : String),
      jsToLower endpoint ∈ validRaycastAIReps →
      canAI = false →
      ¬ (bp.length = 0 ∧ p.length = 0) →
      selectBranch endpoint canAI bp p = ModelBranch.nativeUnavailable ∧
      branchOutcome (selectBranch endpoint canAI bp p) =
        ⟨"", some "Raycast AI is not available — Upgrade to Pro or use a different model endpoint.",
          false⟩ := by
  intro endpoint canAI bp p hmem hc hne
  have hb : selectBranch endpoint canAI bp p = ModelBranch.nativeUnavailable := by
    simp [selectBranch, hne, hmem, hc]
  exact ⟨hb, by rw [hb]; rfl⟩

/-- Claim C9 counterexample: with both prompts empty, the empty-prompt guard
fires before the native-AI branch, so the invocation yields the empty-prompt
error rather than the capability-unavailable error, even though the endpoint
matches an alias and the capability is unavailable. -/
theorem c9_counterexample :
    branchOutcome (selectBranch "raycast ai" false "" "") =
      ⟨"", some "Prompt cannot be empty", false⟩ ∧
    (⟨"", some "Prompt cannot be empty", false⟩ : ModelOutcome) ≠
      ⟨"", some "Raycast AI is not available — Upgrade to Pro or use a different model endpoint.",
        false⟩ := by
  exact ⟨rfl, by decide⟩

/-- Claim C9 witness. -/
theorem c9_witness :
    selectBranch "RayCast-AI" false "x" "" = ModelBranch.nativeUnavailable :=
  (c9_capability_amended "RayCast-AI" false "x" "" (by decide) rfl (by decide)).1

lemma isPrefixL_iff : ∀ p s : List Char, isPrefixL p s = true ↔ p <+: s := by
  intro p
  induction p with
  | nil =>
    intro s
    simp [isPrefixL, List.nil_prefix]
  | cons a as ih =>
    intro s
    cases s with
    | nil =>
      simp [isPrefixL, List.prefix_nil]
    | cons b bs =>
      simp [isPrefixL, List.cons_prefix_cons, ih bs]

lemma findFirst_isSome_iff : ∀ pat s : List Char, (findFirst pat s).isSome = true ↔ pat <:+: s := by
  intro pat s
  induction s with
  | nil =>
    constructor
    · intro hs
      by_cases h : isPrefixL pat [] = true
      · have hp : pat = [] := List.prefix_nil.mp ((isPrefixL_iff pat []).mp h)
        subst hp
        exact List.infix_refl []
      · rw [show findFirst pat [] = none from by simp [findFirst, h]] at hs
        cases hs
    · intro hinf
      have hp : pat = [] := List.sublist_nil.mp hinf.sublist
      subst hp
      rfl
  | cons c rest ih =>
    constructor
    · intro hs
      by_cases h : isPrefixL pat (c :: rest) = true
      · exact ((isPrefixL_iff pat (c :: rest)).mp h).isInfix
      · have heq : findFirst pat (c :: rest) =
            (findFirst pat rest).map (fun pr => (c :: pr.1, pr.2)) := by
          simp [findFirst, h]
        rw [heq] at hs
        cases hfr : findFirst pat rest with
        | none => rw [hfr] at hs; cases hs
        | some q =>
          exact List.infix_cons_iff.mpr (Or.inr (ih.mp (by rw [hfr]; rfl)))
    · intro hinf
      rcases List.infix_cons_iff.mp hinf with hpre | hinf2
      · have h : isPrefixL pat (c :: rest) = true := (isPrefixL_iff pat (c :: rest)).mpr hpre
        simp [findFirst, h]
      · have hs := ih.mpr hinf2
        by_cases h : isPrefixL pat (c :: rest) = true
        · simp [findFirst, h]
        · have heq : findFirst pat (c :: rest) =
              (findFirst pat rest).map (fun pr => (c :: pr.1, pr.2)) := by
            simp [findFirst, h]
          rw [heq]
          cases hfr : findFirst pat rest with
          | none => rw [hfr] at hs; cases hs
          | some q => rfl

lemma jsIncludes_iff (s sub : String) :
    jsIncludes s sub = true ↔ sub.toList <:+: s.toList :=
  findFirst_isSome_iff sub.toList s.toList

/-- Claim C3: each extracted chunk value that contains the accumulated text
as a substring replaces it (snapshot semantics), any other chunk value is
appended (delta semantics); in particular the chunk sequences
`["He", "Hello"]` and `["He", "llo"]` both accumulate to `"Hello"`. -/
theorem c3_stream_accumulation :
    (∀ text chunk : String,
      (text.toList <:+: chunk.toList → accumStep text chunk = chunk) ∧
      (¬ text.toList <:+: chunk.toList → accumStep text chunk = text ++ chunk)) ∧
    accumulate ["He", "Hello"] = "Hello" ∧
    accumulate ["He", "llo"] = "Hello" := by
  refine ⟨?_, rfl, rfl⟩
  intro text chunk
  constructor
  · intro h
    unfold accumStep
    rw [if_pos ((jsIncludes_iff chunk text).mpr h)]
  · intro h
    unfold accumStep
    rw [if_neg]
    intro h'
    exact h ((jsIncludes_iff chunk text).mp h')

/-- Claim C3 witness. -/
theorem c3_witness :
    accumStep "He" "Hello" = "Hello" ∧ accumStep "He" "llo" = "He" ++ "llo" :=
  ⟨(c3_stream_accumulation.1 "He" "Hello").1 (by decide),
   (c3_stream_accumulation.1 "He" "llo").2 (by decide)⟩

lemma getSubst_of_noDollar (m pre post : List Char) :
    ∀ l : List Char, l.all (fun c => c != '$') = true → getSubst m pre post l = l := by
  intro l
  induction l with
  | nil => intro _; rfl
  | cons c rest ih =>
    intro h
    rw [List.all_cons, Bool.and_eq_true] at h
    unfold getSubst
    rw [if_neg (by simpa using h.1), ih h.2]

lemma replAllGo_of_none (pat repl l : List Char) (h : findFirst pat l = none) :
    ∀ n, replAllGo pat repl n l = l := by
  intro n
  cases n with
  | zero => rfl
  | succ m => simp [replAllGo, h]

lemma jsReplaceL_eq_replAll (sl patl repll : List Char)
    (h1 : (match findFirst patl sl with
           | none => true
           | some pr => (findFirst patl pr.2).isNone) = true)
    (h2 : repll.all (fun c => c != '$') = true) :
    jsReplaceL sl patl repll = replAllGo patl repll (sl.length + 1) sl := by
  unfold jsReplaceL
  cases hf : findFirst patl sl with
  | none => simp [replAllGo, hf]
  | some pr =>
    obtain ⟨pre, post⟩ := pr
    rw [hf] at h1
    have h1' : (findFirst patl post).isNone = true := h1
    have hnone : findFirst patl post = none := by
      cases hff : findFirst patl post with
      | none => rfl
      | some q => rw [hff] at h1'; cases h1'
    simp [replAllGo, hf, replAllGo_of_none patl repll post hnone,
      getSubst_of_noDollar patl pre post repll h2]

lemma jsReplace_eq_replaceAll (s pat repl : String)
    (h1 : noSecond s pat = true) (h2 : noDollarS repl = true) :
    jsReplace s pat repl = replaceAllStr s pat repl :=
  congrArg String.mk (jsReplaceL_eq_replAll s.toList pat.toList repl.toList h1 h2)

/-- Claim C4 (amended): JS `replace` substitutes only the FIRST occurrence of
each token, sequentially prompt → basePrompt → input; when each token occurs
at most once at its substitution stage and the substituted values contain no
`$` (whose replacement patterns JS would expand), the body equals the
template with every token literally substituted by its value — prefix and
suffix around the collapsed-escaped prompt, prefix only before the
basePrompt value, suffix only after the input value, and the input value
empty when the template contains `\x7bprompt` and input equals prompt.  The
scenario of the claim holds: template `\x7b"q":"\x7bprompt\x7d"\x7d` with
prompt `"hi\nthere"` yields `\x7b"q":"hi there"\x7d`. -/
theorem c4_body_amended :
    (∀ tmpl pfx sfx bp p inp : String,
      noSecond tmpl "\x7bprompt\x7d" = true →
      noSecond (jsReplace tmpl "\x7bprompt\x7d" (pfx ++ strCE p ++ sfx))
        "\x7bbasePrompt\x7d" = true →
      noSecond (jsReplace (jsReplace tmpl "\x7bprompt\x7d" (pfx ++ strCE p ++ sfx))
        "\x7bbasePrompt\x7d" (pfx ++ strCE bp)) "\x7binput\x7d" = true →
      noDollarS (pfx ++ strCE p ++ sfx) = true →
      noDollarS (pfx ++ strCE bp) = true →
      noDollarS (inputValue tmpl sfx p inp) = true →
      buildBodySync tmpl pfx sfx bp p inp = specBodySync tmpl pfx sfx bp p inp) ∧
    buildBodySync "\x7b\"q\":\"\x7bprompt\x7d\"\x7d" "" "" "" "hi\nthere" "" =
      "\x7b\"q\":\"hi there\"\x7d" := by
  constructor
  · intro tmpl pfx sfx bp p inp h1 h2 h3 hd1 hd2 hd3
    unfold buildBodySync specBodySync
    rw [jsReplace_eq_replaceAll _ _ _ h3 hd3, jsReplace_eq_replaceAll _ _ _ h2 hd2,
      jsReplace_eq_replaceAll _ _ _ h1 hd1]
  · rfl

/-- Claim C4 counterexample: with two occurrences of the prompt token in the
template, the code substitutes only the first, so the body does not equal the
template with the tokens substituted. -/
theorem c4_counterexample :
    buildBodySync "\x7bprompt\x7d\x7bprompt\x7d" "" "" "" "hi" "x" = "hi\x7bprompt\x7d" ∧
    specBodySync "\x7bprompt\x7d\x7bprompt\x7d" "" "" "" "hi" "x" = "hihi" ∧
    buildBodySync "\x7bprompt\x7d\x7bprompt\x7d" "" "" "" "hi" "x" ≠
      specBodySync "\x7bprompt\x7d\x7bprompt\x7d" "" "" "" "hi" "x" := by
  refine ⟨rfl, rfl, ?_⟩
  decide

/-- Claim C4 witness. -/
theorem c4_witness :
    buildBodySync "q=\x7bprompt\x7d" "" "" "" "hello" "x" =
      specBodySync "q=\x7bprompt\x7d" "" "" "" "hello" "x" :=
  c4_body_amended.1 "q=\x7bprompt\x7d" "" "" "" "hello" "x" (by decide) (by decide)
    (by decide) (by decide) (by decide) (by decide)

lemma jsTrimL_eq_self (l : List Char) (c d : Char) (rest init : List Char)
    (h1 : l = c :: rest) (h2 : l = init ++ [d])
    (hc : isJsWS c = false) (hd : isJsWS d = false) : jsTrimL l = l := by
  unfold jsTrimL
  have hfront : l.dropWhile isJsWS = l := by
    rw [h1, List.dropWhile_cons, hc]
    rfl
  rw [hfront]
  have hrev : l.reverse = d :: init.reverse := by
    rw [h2, List.reverse_append]; rfl
  rw [hrev, List.dropWhile_cons, hd]
  show (d :: init.reverse).reverse = l
  rw [← hrev, List.reverse_reverse]

lemma jsToNumber_eq_none (s : String) (c d : Char) (rest init : List Char)
    (h1 : s.toList = c :: rest) (h2 : s.toList = init ++ [d])
    (hc : isJsWS c = false) (hd : isJsWS d = false)
    (hm : c ≠ '-') (hp : c ≠ '+') (hdg : c.isDigit = false) :
    jsToNumber s = none := by
  unfold jsToNumber
  rw [jsTrimL_eq_self s.toList c d rest init h1 h2 hc hd, h1]
  simp only [jsToNumberL]
  rw [if_neg hm, if_neg hp, if_neg]
  rw [List.all_cons, hdg]
  simp

lemma jsGtNum_of_none (s : String) (b : Int) (h : jsToNumber s = none) :
    jsGtNum s b = false := by
  unfold jsGtNum
  rw [h]

lemma c1Query_length : c1Query.length = 1949 := by
  rw [show c1Query.length = (List.replicate 1949 'a').length from rfl, List.length_replicate]

lemma c1_join_eq : jsJoin ["p", "", c1Query] "\n" = ((("p" ++ "\n") ++ "") ++ "\n") ++ c1Query :=
  rfl

lemma c1_join_length : (jsJoin ["p", "", c1Query] "\n").length = 1952 := by
  rw [c1_join_eq]
  simp [String.length_append, c1Query_length]
  rfl

lemma c1_arg_cons : (c1Query ++ "1952").toList = 'a' :: (List.replicate 1948 'a' ++ "1952".toList) := by
  show (c1Query ++ "1952").data = _
  rw [String.data_append]
  show List.replicate 1949 'a' ++ "1952".data = _
  rw [show (1949 : Nat) = 1948 + 1 from rfl, List.replicate_succ, List.cons_append]
  rfl

lemma c1_arg_concat :
    (c1Query ++ "1952").toList = (List.replicate 1949 'a' ++ ['1', '9', '5']) ++ ['2'] := by
  show (c1Query ++ "1952").data = _
  rw [String.data_append]
  show List.replicate 1949 'a' ++ "1952".data = _
  rw [show "1952".data = ['1', '9', '5'] ++ ['2'] from rfl, List.append_assoc]

lemma c1_toNumber_none : jsToNumber (c1Query ++ "1952") = none :=
  jsToNumber_eq_none _ 'a' '2' _ _ c1_arg_cons c1_arg_concat rfl rfl (by decide) (by decide) rfl

lemma c1_trimCond_false : trimCond c1Query ["p", "", c1Query] = false := by
  unfold trimCond
  rw [c1_join_length, show toString (1952 : Nat) = "1952" from rfl]
  exact jsGtNum_of_none _ _ c1_toNumber_none

lemma c1_trimGo : trimGo c1Query ["p", "", c1Query] = some ["p", "", c1Query] := by
  unfold trimGo
  rw [c1_trimCond_false]
  rfl

lemma onSubmit_conversation (bp : String) (cps : List String) (fl : Nat)
    (resolve : String → String) (st : SessionState) (values : FormValues)
    (hne : ¬ (values.queryField.length = 0)) (convo : List String)
    (htr : trimGo values.queryField
        (st.conversation ++ [values.responseField, values.queryField]) = some convo) :
    (onSubmit bp cps fl resolve st values).1.conversation = convo := by
  unfold onSubmit
  rw [if_neg hne, htr]

/-- Claim C1 (code bug): the trimming condition of the submit handler is
`values.queryField + convo.join("\n").length > 3900`, where the `+` is JS
STRING concatenation and the comparison converts that string with `ToNumber`.
For a non-numeric query the conversion is `NaN`, the comparison is false, and
NO trimming ever happens, so the invariant
`length(query) + length(join(history)) ≤ 3900` fails: a 1949-character query
submitted over the seeded history leaves the full conversation in place with
`1949 + 1952 = 3901 > 3900`.  (The intended condition is clearly
`values.queryField.length + convo.join("\n").length > 3900`.) -/
theorem c1_trim_overflow :
    (onSubmit "p" [] 0 id (SessionState.mk "" "" "" "" false none ["p"])
        (FormValues.mk c1Query "" false true)).1.conversation = ["p", "", c1Query] ∧
    3900 < c1Query.length +
        (jsJoin (onSubmit "p" [] 0 id (SessionState.mk "" "" "" "" false none ["p"])
            (FormValues.mk c1Query "" false true)).1.conversation "\n").length := by
  have hne : c1Query.length ≠ 0 := by rw [c1Query_length]; norm_num
  have hconv := onSubmit_conversation "p" [] 0 id
    (SessionState.mk "" "" "" "" false none ["p"]) (FormValues.mk c1Query "" false true)
    hne ["p", "", c1Query] c1_trimGo
  refine ⟨hconv, ?_⟩
  rw [hconv, c1Query_length, c1_join_length]
  norm_num

lemma takeWhile_all_of (p : Char → Bool) : ∀ l : List Char, (∀ c ∈ l, p c = true) →
    l.takeWhile p = l := by
  intro l h
  induction l with
  | nil => rfl
  | cons c rest ih =>
    have hc := h c (List.mem_cons_self c rest)
    rw [List.takeWhile_cons, hc]
    show c :: rest.takeWhile p = c :: rest
    rw [ih (fun x hx => h x (List.mem_cons_of_mem c hx))]

lemma splitAtLastRB_concat : ∀ xs : List Char, splitAtLastRB (xs ++ [']']) = some (xs, []) := by
  intro xs
  induction xs with
  | nil => rfl
  | cons c rest ih =>
    show splitAtLastRB (c :: (rest ++ [']'])) = some (c :: rest, [])
    unfold splitAtLastRB
    rw [ih]

lemma bracketCapture_concat (idx : List Char) (hne : idx ≠ [])
    (hnb : ∀ c ∈ idx, c ≠ curlyClose) :
    bracketCapture (idx ++ [']']) = some (idx, []) := by
  have hrun : (idx ++ [']']).takeWhile (fun c => c != curlyClose) = idx ++ [']'] := by
    apply takeWhile_all_of
    intro c hc
    rcases List.mem_append.mp hc with h | h
    · simpa using hnb c h
    · rw [List.mem_singleton] at h
      subst h
      decide
  have hemp : idx.isEmpty = false := by
    cases hx : idx with
    | nil => exact absurd hx hne
    | cons a b => rfl
  unfold bracketCapture
  rw [hrun, splitAtLastRB_concat idx]
  show (if idx.isEmpty then none else _) = _
  rw [hemp]
  show some (idx, [] ++ (idx ++ [']']).drop (idx ++ [']']).length) = some (idx, [])
  rw [List.drop_length]
  rfl

lemma findMatch_cons_of_ne (c : Char) (l : List Char) (hc : c ≠ '[') :
    findMatch (c :: l) = (findMatch l).map (fun pr => (c :: pr.1, pr.2.1, pr.2.2)) := by
  simp only [findMatch]
  rw [if_neg hc]

lemma findMatch_cons_open (l cap rem : List Char) (hb : bracketCapture l = some (cap, rem)) :
    findMatch ('[' :: l) = some ([], cap, rem) := by
  unfold findMatch
  rw [if_pos rfl, hb]

lemma findMatch_structured (idx : List Char) (hne : idx ≠ [])
    (hnb : ∀ c ∈ idx, c ≠ curlyClose) :
    ∀ name : List Char, (∀ c ∈ name, c ≠ '[') →
      findMatch (name ++ '[' :: (idx ++ [']'])) = some (name, idx, []) := by
  intro name
  induction name with
  | nil =>
    intro _
    show findMatch ('[' :: (idx ++ [']'])) = some ([], idx, [])
    exact findMatch_cons_open _ _ _ (bracketCapture_concat idx hne hnb)
  | cons c rest ih =>
    intro hname
    show findMatch (c :: (rest ++ '[' :: (idx ++ [']']))) = some (c :: rest, idx, [])
    rw [findMatch_cons_of_ne c _ (hname c (List.mem_cons_self c rest)),
      ih (fun x hx => hname x (List.mem_cons_of_mem c hx))]
    rfl

lemma dotSplit_no_dot : ∀ l : List Char, (∀ c ∈ l, c ≠ '.') → dotSplit l = [l] := by
  intro l h
  induction l with
  | nil => rfl
  | cons c rest ih =>
    unfold dotSplit
    rw [if_neg (h c (List.mem_cons_self c rest)),
      ih (fun x hx => h x (List.mem_cons_of_mem c hx))]

lemma splitCapGo_nil_arg : ∀ n : Nat, splitCapGo n [] = [[]] := by
  intro n
  cases n with
  | zero => rfl
  | succ m => rfl

lemma tokenizePath_single (name idx : String)
    (hn : name.toList ≠ []) (hi : idx.toList ≠ [])
    (hname : ∀ c ∈ name.toList, c ≠ '.' ∧ c ≠ '[' ∧ isJsWS c = false)
    (hidx : ∀ c ∈ idx.toList, c ≠ '.' ∧ c ≠ curlyClose) :
    tokenizePath (name ++ "[" ++ idx ++ "]") = [name, idx] := by
  have hlist : (name ++ "[" ++ idx ++ "]").toList =
      name.toList ++ '[' :: (idx.toList ++ [']']) := by
    show (name ++ "[" ++ idx ++ "]").data = _
    rw [String.data_append, String.data_append, String.data_append]
    rw [show "[".data = ['['] from rfl, show "]".data = [']'] from rfl]
    rw [List.append_assoc, List.append_assoc]
    rfl
  obtain ⟨c0, nrest, hc0⟩ : ∃ c0 nrest, name.toList = c0 :: nrest := by
    cases hx : name.toList with
    | nil => exact absurd hx hn
    | cons a b => exact ⟨a, b, rfl⟩
  have htrim : jsTrimL ((name ++ "[" ++ idx ++ "]").toList) =
      (name ++ "[" ++ idx ++ "]").toList := by
    apply jsTrimL_eq_self _ c0 ']' (nrest ++ '[' :: (idx.toList ++ [']']))
      (name.toList ++ '[' :: idx.toList)
    · rw [hlist, hc0]
      rfl
    · rw [hlist]
      simp [List.append_assoc]
    · exact (hname c0 (by rw [hc0]; exact List.mem_cons_self c0 nrest)).2.2
    · decide
  have hnodot : ∀ c ∈ name.toList ++ '[' :: (idx.toList ++ [']']), c ≠ '.' := by
    intro c hc
    rcases List.mem_append.mp hc with h | h
    · exact (hname c h).1
    · rcases List.mem_cons.mp h with h1 | h1
      · subst h1; decide
      · rcases List.mem_append.mp h1 with h2 | h2
        · exact (hidx c h2).1
        · rw [List.mem_singleton] at h2; subst h2; decide
  have hfm := findMatch_structured idx.toList hi (fun c hc => (hidx c hc).2) name.toList
    (fun c hc => (hname c hc).2.1)
  have hemp1 : (!(name.toList).isEmpty) = true := by
    rw [hc0]; rfl
  have hemp2 : (!(idx.toList).isEmpty) = true := by
    cases hx : idx.toList with
    | nil => exact absurd hx hi
    | cons a b => rfl
  unfold tokenizePath
  rw [htrim, hlist, dotSplit_no_dot _ hnodot]
  rw [show ([name.toList ++ '[' :: (idx.toList ++ [']'])].flatMap splitCapture) =
      splitCapture (name.toList ++ '[' :: (idx.toList ++ [']'])) from by simp]
  unfold splitCapture
  simp only [splitCapGo]
  rw [hfm]
  dsimp only
  rw [splitCapGo_nil_arg]
  simp only [List.filter_cons, hemp1, hemp2]
  simp [List.filter]

/-- Claim C6 (amended): tokenization splits on `.` first; each segment is then
split by one greedy regex match per scan (`[` up to the last closing `]`
reachable without crossing a `\x7d`), so a segment with a single bracket group
`name[idx]` yields the tokens `name` and `idx`, but several bracket groups in
one segment are merged into a single token (`a[0][1]` yields `a` and `0][1`,
not `a`, `0`, `1`); empty tokens are discarded.  The claim's scenario holds:
path `choices[0].text` on `\x7b"choices":[\x7b"text":"ok"\x7d]\x7d` returns
`"ok"`. -/
theorem c6_tokenization_amended :
    (∀ name idx : String,
      name.toList ≠ [] → idx.toList ≠ [] →
      (∀ c ∈ name.toList, c ≠ '.' ∧ c ≠ '[' ∧ isJsWS c = false) →
      (∀ c ∈ idx.toList, c ≠ '.' ∧ c ≠ curlyClose) →
      tokenizePath (name ++ "[" ++ idx ++ "]") = [name, idx]) ∧
    tokenizePath "a[0][1]" = ["a", "0][1"] ∧
    get (JsValue.obj [("choices", JsValue.arr [JsValue.obj [("text", JsValue.str "ok")]])])
      "choices[0].text" none = Except.ok (some (JsValue.str "ok")) :=
  ⟨fun name idx hn hi hname hidx => tokenizePath_single name idx hn hi hname hidx, rfl, rfl⟩

/-- Claim C6 counterexample: on a segment with two bracket groups the code's
greedy regex produces the merged token `0][1`, not the bracket-delimited
sub-segments `0` and `1` that the claim describes. -/
theorem c6_counterexample :
    tokenizePath "a[0][1]" = ["a", "0][1"] ∧
    specTokenize "a[0][1]" = ["a", "0", "1"] ∧
    tokenizePath "a[0][1]" ≠ specTokenize "a[0][1]" := by
  refine ⟨rfl, rfl, ?_⟩
  decide

/-- Claim C6 witness. -/
theorem c6_witness :
    tokenizePath ("name" ++ "[" ++ "idx" ++ "]") = ["name", "idx"] :=
  c6_tokenization_amended.1 "name" "idx" (by decide) (by decide) (by decide) (by decide)

end PromptLab
